import Mathlib

/-!
Verification development for the audio noise-suppression pipeline:
shallow embedding of the denoise core (math utilities, lazy WASM module
loaders, VAD-driven gain controller, RNNoise and DeepFilterNet frame
processors, denoiser base class, registry configuration merging, and the
track processor's emit step), together with theorems settling the frozen
claims about it.  Machine floating-point numbers are embedded as exact
rationals; asynchronous single-flight loading is embedded as an explicit
event-trace state machine.
-/

namespace Denoise

/-! ### Math utilities (math.ts) -/

/-- `clamp` from math.ts: clamp a value between min and max
(`Math.max(min, Math.min(max, value))`). -/
def clamp (value lo hi : ℚ) : ℚ := max lo (min hi value)

/-- `lerp` from math.ts: `a + (b - a) * clamp(t, 0, 1)`. -/
def lerp (a b t : ℚ) : ℚ := a + (b - a) * clamp t 0 1

/-- `greatestCommonDivisor` from math.ts, a subtractive loop
`while (a !== b) { if (a > b) a -= b else b -= a }; return b`,
embedded with explicit fuel counting loop iterations; `none` means the
fuel was exhausted with the loop still running. -/
def greatestCommonDivisor : ℕ → ℤ → ℤ → Option ℤ
  | fuel, a, b =>
    if a = b then some b
    else match fuel with
      | 0 => none
      | f + 1 => if a > b then greatestCommonDivisor f (a - b) b
                 else greatestCommonDivisor f a (b - a)

/-! ### Lazy WASM module loader (WasmLoader.ts) as an event-trace machine -/

/-- `LoadStatus` from types.ts. -/
inductive LoadStatus where
  | notLoaded
  | loading
  | loaded
  | error
deriving DecidableEq

/-- The mutable fields of `WasmLoader`.  Modules and in-flight promises
are identified by numeric tokens; `fetchCount` counts invocations of the
underlying `loadFn` fetch closure. -/
structure WasmLoaderState where
  status : LoadStatus
  module : Option ℕ
  loadPromise : Option ℕ
  fetchCount : ℕ
deriving DecidableEq

/-- Freshly constructed `WasmLoader`. -/
def WasmLoader.init : WasmLoaderState :=
  { status := .notLoaded, module := none, loadPromise := none, fetchCount := 0 }

/-- What a `load()` call does: return the cached module, await the
in-flight promise, or start a new fetch. -/
inductive LoadAction where
  | cached (m : ℕ)
  | awaitPromise (p : ℕ)
  | startFetch (p : ℕ)
deriving DecidableEq

/-- The branch taken by `WasmLoader.load()` in a given state, mirroring
the source's two guards and fall-through. -/
def WasmLoader.loadAction (s : WasmLoaderState) : LoadAction :=
  if s.status = .loaded ∧ s.module.isSome then .cached (s.module.getD 0)
  else if s.status = .loading ∧ s.loadPromise.isSome then .awaitPromise (s.loadPromise.getD 0)
  else .startFetch s.fetchCount

/-- State change performed by a `load()` call. -/
def WasmLoader.load (s : WasmLoaderState) : WasmLoaderState :=
  match WasmLoader.loadAction s with
  | .cached _ => s
  | .awaitPromise _ => s
  | .startFetch p =>
      { s with status := .loading, loadPromise := some p, fetchCount := s.fetchCount + 1 }

/-- Observable events on a `WasmLoader`: a `load()` call, the in-flight
fetch resolving (the `.then` continuation), the in-flight fetch rejecting
(the `.catch` continuation), and `reset()`. -/
inductive WasmLoaderEvent where
  | load
  | resolveOk (m : ℕ)
  | resolveErr
  | reset
deriving DecidableEq

/-- One event's effect on the loader state, from the source of
`load()` (both continuations) and `reset()`. -/
def WasmLoader.step (s : WasmLoaderState) : WasmLoaderEvent → WasmLoaderState
  | .load => WasmLoader.load s
  | .resolveOk m => { s with status := .loaded, module := some m }
  | .resolveErr => { s with status := .error, module := none }
  | .reset => { s with status := .notLoaded, module := none, loadPromise := none }

/-- Run a trace of events. -/
def WasmLoader.run (s : WasmLoaderState) : List WasmLoaderEvent → WasmLoaderState
  | [] => s
  | e :: es => WasmLoader.run (WasmLoader.step s e) es

/-- A trace is well formed when each fetch-completion event fires only
while a fetch is in flight (status `LOADING`): the continuations are
attached to the in-flight promise. -/
def WasmLoader.valid (s : WasmLoaderState) : List WasmLoaderEvent → Bool
  | [] => true
  | e :: es =>
    (match e with
     | .resolveOk _ => s.status = .loading
     | .resolveErr => s.status = .loading
     | _ => true) && WasmLoader.valid (WasmLoader.step s e) es

/-- An event is benign when it is neither a load failure nor a reset. -/
def WasmLoaderEvent.benign : WasmLoaderEvent → Bool
  | .load => true
  | .resolveOk _ => true
  | _ => false

/-! ### DeepFilterNet static loader (DeepFilterNetProcessor.ts) -/

/-- The mutable statics of `DeepFilterNetLoader` relevant to the
single-flight discipline: the cached data, the `isLoading` flag, the
number of callers parked in the polling loop, and the number of times the
fetch-and-materialize body ran. -/
structure DfnLoaderState where
  wasmData : Option ℕ
  isLoading : Bool
  waiters : ℕ
  fetchCount : ℕ
deriving DecidableEq

/-- Initial statics of `DeepFilterNetLoader`. -/
def DfnLoader.init : DfnLoaderState :=
  { wasmData := none, isLoading := false, waiters := 0, fetchCount := 0 }

/-- Observable events on `DeepFilterNetLoader.loadWasmData`: a call
entering the function, the in-flight body completing successfully or
raising, a parked caller resuming after `isLoading` clears, and
`reset()`. -/
inductive DfnLoaderEvent where
  | call
  | completeOk (m : ℕ)
  | completeErr
  | waiterResume
  | reset
deriving DecidableEq

/-- One event's effect, from the source of `loadWasmData`: a call returns
the cache when present, parks while `isLoading`, and otherwise sets
`isLoading` and fetches; a resuming waiter returns the cache when
present and otherwise starts its own fetch; completion stores the data
(on success) and clears `isLoading` (the `finally`). -/
def DfnLoader.step (s : DfnLoaderState) : DfnLoaderEvent → DfnLoaderState
  | .call =>
      if s.wasmData.isSome then s
      else if s.isLoading then { s with waiters := s.waiters + 1 }
      else { s with isLoading := true, fetchCount := s.fetchCount + 1 }
  | .completeOk m => { s with wasmData := some m, isLoading := false }
  | .completeErr => { s with isLoading := false }
  | .waiterResume =>
      if s.wasmData.isSome then { s with waiters := s.waiters - 1 }
      else { s with isLoading := true, waiters := s.waiters - 1,
                    fetchCount := s.fetchCount + 1 }
  | .reset => { s with wasmData := none, isLoading := false }

/-- Run a trace of events. -/
def DfnLoader.run (s : DfnLoaderState) : List DfnLoaderEvent → DfnLoaderState
  | [] => s
  | e :: es => DfnLoader.run (DfnLoader.step s e) es

/-- Well-formed traces: completions fire only while the body is running,
and a waiter resumes only if one is parked and `isLoading` has cleared
(the polling loop exits only then). -/
def DfnLoader.valid (s : DfnLoaderState) : List DfnLoaderEvent → Bool
  | [] => true
  | e :: es =>
    (match e with
     | .completeOk _ => s.isLoading
     | .completeErr => s.isLoading
     | .waiterResume => !s.isLoading && decide (0 < s.waiters)
     | _ => true) && DfnLoader.valid (DfnLoader.step s e) es

/-- An event is benign when it is neither a load failure nor a reset. -/
def DfnLoaderEvent.benign : DfnLoaderEvent → Bool
  | .call => true
  | .completeOk _ => true
  | .waiterResume => true
  | _ => false

/-! ### Neural model gzip handling (DeepFilterNetLoader.loadWasmData) -/

/-- Error cases of the model-payload handling. -/
inductive GzipError where
  | recompressFailed
deriving DecidableEq

/-- Gzip magic check on the fetched model payload: length at least 2 and
first two bytes `0x1F 0x8B`. -/
def isGzipped : List ℕ → Bool
  | b0 :: b1 :: _ => b0 = 0x1f && b1 = 0x8b
  | _ => false

/-- The model-payload branch of `loadWasmData`: a payload carrying the
gzip magic is cached unchanged; otherwise it is re-compressed with the
supplied compressor `gz` (fflate's `gzipSync`), and a compressor failure
fails the load. -/
def processModelData (gz : List ℕ → Except GzipError (List ℕ))
    (payload : List ℕ) : Except GzipError (List ℕ) :=
  if isGzipped payload then .ok payload
  else gz payload

/-! ### VAD gain processor (VadGainProcessor.ts) -/

/-- `VadGainConfig` from types.ts (scalars are exact rationals; the
hangover length is an integer count of frames). -/
structure VadGainConfig where
  vadSmoothingFactor : ℚ
  vadThreshold : ℚ
  hangoverFrames : ℕ
  minGateGain : ℚ
  attackSmoothing : ℚ
  releaseSmoothing : ℚ
  hangoverFadeStart : ℚ
deriving DecidableEq

/-- `DEFAULT_VAD_CONFIG` from VadGainProcessor.ts. -/
def DEFAULT_VAD_CONFIG : VadGainConfig :=
  { vadSmoothingFactor := 8/100
    vadThreshold := 3/10
    hangoverFrames := 45
    minGateGain := 15/100
    attackSmoothing := 15/100
    releaseSmoothing := 3/100
    hangoverFadeStart := 6/10 }

/-- `VadGainState` from types.ts. -/
structure VadGainState where
  smoothedVad : ℚ
  hangoverFrames : ℕ
  previousGain : ℚ
  targetGain : ℚ
deriving DecidableEq

/-- `createInitialState` from VadGainProcessor.ts. -/
def VadGain.initialState : VadGainState :=
  { smoothedVad := 0, hangoverFrames := 0, previousGain := 1, targetGain := 1 }

/-- `VadGainProcessor.computeTargetGain`, evaluated on the state after
the smoothing and hangover updates of the enclosing `computeGain` call. -/
def VadGain.computeTargetGain (cfg : VadGainConfig) (s : VadGainState) : ℚ :=
  if s.smoothedVad > cfg.vadThreshold then 1
  else if 0 < s.hangoverFrames then
    let progress := 1 - (s.hangoverFrames : ℚ) / (cfg.hangoverFrames : ℚ)
    if progress < cfg.hangoverFadeStart then 1
    else
      let fadeProgress := (progress - cfg.hangoverFadeStart) / (1 - cfg.hangoverFadeStart)
      let easedFade := 1 - (1 - fadeProgress) ^ 3
      1 - easedFade * (1 - cfg.minGateGain * 2)
  else
    let vadNormalized := clamp (s.smoothedVad / cfg.vadThreshold) 0 1
    let cubicFade := vadNormalized ^ 3
    cfg.minGateGain + (1 - cfg.minGateGain) * cubicFade

/-- `VadGainProcessor.computeGain`: asymmetric VAD smoothing, hangover
update, target computation, and asymmetric gain smoothing; returns the
smoothed gain together with the updated state. -/
def VadGain.computeGain (cfg : VadGainConfig) (s : VadGainState) (vadScore : ℚ) :
    ℚ × VadGainState :=
  let smoothingFactor :=
    if vadScore > s.smoothedVad then cfg.attackSmoothing else cfg.vadSmoothingFactor
  let sv := lerp s.smoothedVad vadScore smoothingFactor
  let h :=
    if sv > cfg.vadThreshold then cfg.hangoverFrames
    else if 0 < s.hangoverFrames then s.hangoverFrames - 1
    else s.hangoverFrames
  let tg := VadGain.computeTargetGain cfg
    { smoothedVad := sv, hangoverFrames := h,
      previousGain := s.previousGain, targetGain := s.targetGain }
  let gainSmoothing :=
    if tg > s.previousGain then cfg.attackSmoothing else cfg.releaseSmoothing
  let g := lerp s.previousGain tg gainSmoothing
  (g, { smoothedVad := sv, hangoverFrames := h, previousGain := g, targetGain := tg })

/-- The gains returned by a sequence of `computeGain` calls. -/
def VadGain.runGains (cfg : VadGainConfig) (s : VadGainState) : List ℚ → List ℚ
  | [] => []
  | v :: vs =>
    let r := VadGain.computeGain cfg s v
    r.1 :: VadGain.runGains cfg r.2 vs

/-- The state after a sequence of `computeGain` calls. -/
def VadGain.runState (cfg : VadGainConfig) (s : VadGainState) : List ℚ → VadGainState
  | [] => s
  | v :: vs => VadGain.runState cfg (VadGain.computeGain cfg s v).2 vs

/-- A state is reachable when some sequence of `computeGain` calls with
scores in `[0, 1]` produces it from the initial state. -/
def VadGain.Reachable (cfg : VadGainConfig) (s : VadGainState) : Prop :=
  ∃ vs : List ℚ, (∀ v ∈ vs, 0 ≤ v ∧ v ≤ 1) ∧
    VadGain.runState cfg VadGain.initialState vs = s

/-- `k` consecutive `computeGain` calls with constant score `1`. -/
def VadGain.callsOne (cfg : VadGainConfig) : ℕ → VadGainState → VadGainState
  | 0, s => s
  | k + 1, s => VadGain.callsOne cfg k (VadGain.computeGain cfg s 1).2

/-! ### RNNoise processor (RNNoiseProcessor.ts) -/

/-- `SCALE_TO_INT16` from RNNoiseProcessor.ts. -/
def SCALE_TO_INT16 : ℚ := 32767

/-- `SCALE_FROM_INT16` from RNNoiseProcessor.ts. -/
def SCALE_FROM_INT16 : ℚ := 1 / 32767

/-- `GAIN_ATTACK_COEFF` from RNNoiseProcessor.ts. -/
def GAIN_ATTACK_COEFF : ℚ := 3/10

/-- `GAIN_RELEASE_COEFF` from RNNoiseProcessor.ts. -/
def GAIN_RELEASE_COEFF : ℚ := 5/100

/-- `MIN_OUTPUT_GAIN` from RNNoiseProcessor.ts. -/
def MIN_OUTPUT_GAIN : ℚ := 1/10

/-- Smoothing state of `RNNoiseProcessor` (`smoothedGain`, `prevVadScore`;
both reset to `1` and `0` by `doInitialize`). -/
structure RNNoiseState where
  smoothedGain : ℚ
  prevVadScore : ℚ
deriving DecidableEq

/-- `RNNoiseProcessor` smoothing state right after `doInitialize`. -/
def RNNoise.initState : RNNoiseState := { smoothedGain := 1, prevVadScore := 0 }

/-- The VAD smoothing line of `RNNoiseProcessor.computeTargetGain`:
`0.7 * vadScore + 0.3 * prevVadScore`. -/
def RNNoise.smoothVad (s : RNNoiseState) (vadScore : ℚ) : ℚ :=
  7/10 * vadScore + 3/10 * s.prevVadScore

/-- `RNNoiseProcessor.computeTargetGain`: smooth the VAD score against the
previous one, then map it to a gain with full gain above `0.5`, a linear
ramp from `MIN_OUTPUT_GAIN` below `0.2`, and a linear transition between. -/
def RNNoise.computeTargetGain (s : RNNoiseState) (vadScore : ℚ) : ℚ :=
  let smoothedVad := RNNoise.smoothVad s vadScore
  if smoothedVad > 1/2 then 1
  else if smoothedVad < 1/5 then
    MIN_OUTPUT_GAIN + smoothedVad / (1/5) * (1/2 - MIN_OUTPUT_GAIN)
  else
    let t := (smoothedVad - 1/5) / (3/10)
    1/2 + t * (1/2)

/-- The gain-smoothing lines of `RNNoiseProcessor.doProcessFrame`:
attack coefficient when the target gain exceeds the current smoothed
gain, release coefficient otherwise. -/
def RNNoise.smoothedGainNext (s : RNNoiseState) (vadScore : ℚ) : ℚ :=
  let targetGain := RNNoise.computeTargetGain s vadScore
  let gainCoeff :=
    if targetGain > s.smoothedGain then GAIN_ATTACK_COEFF else GAIN_RELEASE_COEFF
  s.smoothedGain + gainCoeff * (targetGain - s.smoothedGain)

/-- An abstract RNNoise WASM kernel: given the contents of the input
scratch buffer it yields the contents of the output scratch buffer and a
VAD score.  The kernel lives behind the WASM boundary and is otherwise
unconstrained. -/
def RNNoiseKernel (n : ℕ) : Type := (Fin n → ℚ) → (Fin n → ℚ) × ℚ

/-- `RNNoiseProcessor.doProcessFrame`: scale the input by `32767` into
the kernel's input scratch, invoke the kernel once obtaining the VAD
score, smooth the post-gain toward `computeTargetGain`, and write back
each kernel output sample scaled by `1/32767` and by the smoothed gain.
Returns the transformed frame, the VAD score, and the updated state. -/
def RNNoise.doProcessFrame {n : ℕ} (K : RNNoiseKernel n) (s : RNNoiseState)
    (frame : Fin n → ℚ) : (Fin n → ℚ) × ℚ × RNNoiseState :=
  let input : Fin n → ℚ := fun i => frame i * SCALE_TO_INT16
  let out := (K input).1
  let vadScore := (K input).2
  let g := RNNoise.smoothedGainNext s vadScore
  (fun i => out i * SCALE_FROM_INT16 * g, vadScore,
   { smoothedGain := g, prevVadScore := vadScore })

/-! ### Denoiser base class (AudioDenoiserBase) -/

/-- Error kinds raised by the base class's `processFrame` guards. -/
inductive DenoiserError where
  | notInitialized
  | frameSizeMismatch (expected got : ℕ)
deriving DecidableEq

/-- The base-class fields of a denoiser, over an algorithm-specific state
type `σ` owned by the subclass hooks. -/
structure DenoiserBaseState (σ : Type) where
  isInit : Bool
  lastVadScore : ℚ
  vadLogging : Bool
  alg : σ

/-- `AudioDenoiserBase.processFrame`: reject when not initialized, reject
when the buffer length differs from `frameSize` (both before touching any
state), otherwise run the subclass hook and record the VAD score.  The
subclass is given by its `doProcessFrame` hook and its frame size. -/
def DenoiserBase.processFrame {σ : Type}
    (hook : σ → List ℚ → ℚ × σ) (frameSize : σ → ℕ)
    (s : DenoiserBaseState σ) (frame : List ℚ) :
    Except DenoiserError ℚ × DenoiserBaseState σ :=
  if s.isInit = false then (.error .notInitialized, s)
  else if frame.length ≠ frameSize s.alg then
    (.error (.frameSizeMismatch (frameSize s.alg) frame.length), s)
  else
    let r := hook s.alg frame
    (.ok r.1, { s with lastVadScore := r.1, alg := r.2 })

/-! ### DeepFilterNet configuration (DeepFilterNetProcessor.ts,
DenoiserRegistry.ts, DenoiserFactory.ts) -/

/-- The two tunable DeepFilterNet scalars as they appear in a
`DeepFilterNetConfig` object: `none` means the key is absent. -/
structure DfnConfig where
  attenLimit : Option ℚ
  postFilterBeta : Option ℚ
deriving DecidableEq

/-- `DEFAULT_ATTEN_LIMIT` from DeepFilterNetProcessor.ts. -/
def DEFAULT_ATTEN_LIMIT : ℚ := 18

/-- `DEFAULT_POST_FILTER_BETA` from DeepFilterNetProcessor.ts. -/
def DEFAULT_POST_FILTER_BETA : ℚ := 3/100

/-- The `DeepFilterNetProcessor` constructor's config merge
`{ attenLimit: DEFAULT_ATTEN_LIMIT, postFilterBeta: DEFAULT_POST_FILTER_BETA,
...config }`: a key present in `config` wins, an absent key falls back to
the processor default. -/
def Dfn.constructorConfig (config : DfnConfig) : DfnConfig :=
  { attenLimit := some (config.attenLimit.getD DEFAULT_ATTEN_LIMIT)
    postFilterBeta := some (config.postFilterBeta.getD DEFAULT_POST_FILTER_BETA) }

/-- The registry entry for DeepFilterNet registered by
`registerBuiltinDenoisers`: `defaultConfig: { attenLimit: 80.0,
postFilterBeta: 0.0 }`. -/
def Dfn.registryDefaultConfig : DfnConfig :=
  { attenLimit := some 80, postFilterBeta := some 0 }

/-- `DenoiserRegistryImpl.create`'s merge
`{ ...registration.defaultConfig, ...config }`: a key present in
`config` wins, an absent key falls back to the registration's default. -/
def Registry.mergeConfig (dflt config : DfnConfig) : DfnConfig :=
  { attenLimit := config.attenLimit.orElse fun _ => dflt.attenLimit
    postFilterBeta := config.postFilterBeta.orElse fun _ => dflt.postFilterBeta }

/-- The configuration a `DeepFilterNetProcessor` holds after
`DenoiserRegistry.create(DEEP_FILTER_NET, config)` (used by
`createDenoiser` and `createDeepFilterNetDenoiser`): the registry merges
its `defaultConfig` under the supplied config and hands the result to the
constructor. -/
def Dfn.createViaRegistry (config : DfnConfig) : DfnConfig :=
  Dfn.constructorConfig (Registry.mergeConfig Dfn.registryDefaultConfig config)

/-- A `DeepFilterNetProcessor` abstracted to its held configuration and
lifecycle flag. -/
structure DfnProcessor where
  config : DfnConfig
  isInit : Bool
deriving DecidableEq

/-- `setAttenLimit`: requires an initialized processor, then records the
new limit in the held configuration (and forwards it to the kernel). -/
def Dfn.setAttenLimit (p : DfnProcessor) (limDb : ℚ) : Except DenoiserError DfnProcessor :=
  if p.isInit = false then .error .notInitialized
  else .ok { p with config := { p.config with attenLimit := some limDb } }

/-- `setPostFilterBeta`: requires an initialized processor, then records
the new beta in the held configuration (and forwards it to the kernel). -/
def Dfn.setPostFilterBeta (p : DfnProcessor) (beta : ℚ) : Except DenoiserError DfnProcessor :=
  if p.isInit = false then .error .notInitialized
  else .ok { p with config := { p.config with postFilterBeta := some beta } }

/-- `DeepFilterNetProcessor.configure`: apply `setAttenLimit` and
`setPostFilterBeta` for whichever keys are present; either setter's
failure propagates. -/
def Dfn.configure (p : DfnProcessor) (c : DfnConfig) : Except DenoiserError DfnProcessor :=
  match c.attenLimit with
  | some v =>
    match Dfn.setAttenLimit p v with
    | .error e => .error e
    | .ok p1 =>
      match c.postFilterBeta with
      | some w => Dfn.setPostFilterBeta p1 w
      | none => .ok p1
  | none =>
    match c.postFilterBeta with
    | some w => Dfn.setPostFilterBeta p w
    | none => .ok p

/-! ### Track processor (AudioTrackDenoiser) -/

/-- `FADE_IN_SAMPLES` from AudioTrackDenoiser.ts (~20 ms at 48 kHz). -/
def FADE_IN_SAMPLES : ℕ := 960

/-- The configuration of a processing session that `processFrame`
branches on: whether VAD gain is enabled, whether the owned denoiser is
the RNNoise one, and the VAD gain configuration
(`config.vadConfig ?? DEFAULT_VAD_CONFIG`). -/
structure TrackConfig where
  applyVadGain : Bool
  isRnnoise : Bool
  vadCfg : VadGainConfig

/-- Session state threaded through emitted frames, over an arbitrary
denoiser-internal state type `σ`: the denoiser state, the VAD gain
state, and `fadeInRemaining`. -/
structure TrackState (σ : Type) where
  den : σ
  vadGain : VadGainState
  fadeInRemaining : ℕ

/-- Fresh per-session state built by `startProcessing` (with the default
VAD gain configuration). -/
def Track.initState {σ : Type} (d0 : σ) : TrackState σ :=
  { den := d0, vadGain := VadGain.initialState, fadeInRemaining := FADE_IN_SAMPLES }

/-- `AudioTrackDenoiser.processFrame` (the emit sub-step) for one full
buffer of `n` samples, over an arbitrary denoiser step function `den`:
copy the input into the output buffer, run the denoiser in place
obtaining a VAD score, apply the smoothstep fade-in to the first
`fadeInRemaining` samples, hard-clamp every sample to `[-1, 1]`, and —
when VAD gain is enabled, the denoiser type is RNNoise and the VAD score
is positive — apply `applyGainWithBlend` over the original (pre-denoise)
samples with the default blend ratio `0.1`.  Returns the emitted frame
and the updated session state. -/
def Track.processFrame {σ : Type} (n : ℕ)
    (den : σ → (Fin n → ℚ) → (Fin n → ℚ) × ℚ × σ)
    (tc : TrackConfig) (st : TrackState σ) (input : Fin n → ℚ) :
    (Fin n → ℚ) × TrackState σ :=
  let r := den st.den input
  let out0 := r.1
  let vadScore := r.2.1
  let den' := r.2.2
  let fadeCount := min n st.fadeInRemaining
  let out1 : Fin n → ℚ := fun i =>
    if (i : ℕ) < fadeCount then
      let progress := 1 - ((st.fadeInRemaining : ℚ) - (i : ℚ)) / (FADE_IN_SAMPLES : ℚ)
      out0 i * (progress * progress * (3 - 2 * progress))
    else out0 i
  let fadeInRemaining' := st.fadeInRemaining - fadeCount
  let out2 : Fin n → ℚ := fun i =>
    if out1 i > 1 then 1 else if out1 i < -1 then -1 else out1 i
  if tc.applyVadGain ∧ tc.isRnnoise ∧ vadScore > 0 then
    let prevGain := st.vadGain.previousGain
    let rg := VadGain.computeGain tc.vadCfg st.vadGain vadScore
    let gain := rg.1
    let delta := (gain - prevGain) / (n : ℚ)
    let out3 : Fin n → ℚ := fun i =>
      let g := prevGain + delta * (i : ℚ)
      let blend := max 0 (1 - g) * (1/10)
      out2 i * g + input i * blend * g
    (out3, { den := den', vadGain := rg.2, fadeInRemaining := fadeInRemaining' })
  else
    (out2, { den := den', vadGain := st.vadGain, fadeInRemaining := fadeInRemaining' })

/-- A processing session over inbound frames that each carry exactly
`frameSize` samples (so the reblocker emits one frame per inbound frame):
the list of emitted frames. -/
def Track.runSession {σ : Type} (n : ℕ)
    (den : σ → (Fin n → ℚ) → (Fin n → ℚ) × ℚ × σ)
    (tc : TrackConfig) : TrackState σ → List (Fin n → ℚ) → List (Fin n → ℚ)
  | _, [] => []
  | st, f :: fs =>
    let r := Track.processFrame n den tc st f
    r.1 :: Track.runSession n den tc r.2 fs

/-! ## Helper lemmas -/

theorem clamp01_mem (t : ℚ) : 0 ≤ clamp t 0 1 ∧ clamp t 0 1 ≤ 1 := by
  unfold clamp
  constructor
  · exact le_max_left 0 _
  · exact max_le (by norm_num) (min_le_left 1 t)

theorem affine_mem {lo hi a b t : ℚ} (ha : lo ≤ a) (ha' : a ≤ hi)
    (hb : lo ≤ b) (hb' : b ≤ hi) (ht : 0 ≤ t) (ht' : t ≤ 1) :
    lo ≤ a + (b - a) * t ∧ a + (b - a) * t ≤ hi := by
  constructor <;> nlinarith

theorem lerp_mem {lo hi a b : ℚ} (t : ℚ) (ha : lo ≤ a) (ha' : a ≤ hi)
    (hb : lo ≤ b) (hb' : b ≤ hi) :
    lo ≤ lerp a b t ∧ lerp a b t ≤ hi := by
  have h := clamp01_mem t
  exact affine_mem ha ha' hb hb' h.1 h.2

/-- With the default configuration, `computeTargetGain` always lies in
`[minGateGain, 1]`, whatever the state. -/
theorem vadTargetGain_mem (s : VadGainState) :
    3/20 ≤ VadGain.computeTargetGain DEFAULT_VAD_CONFIG s ∧
    VadGain.computeTargetGain DEFAULT_VAD_CONFIG s ≤ 1 := by
  simp only [VadGain.computeTargetGain, DEFAULT_VAD_CONFIG]
  split_ifs with h1 h2 h3
  · norm_num
  · norm_num
  · have hpos : (0:ℚ) ≤ (s.hangoverFrames : ℚ) / ((45 : ℕ) : ℚ) := by positivity
    set prg : ℚ := 1 - (s.hangoverFrames : ℚ) / ((45 : ℕ) : ℚ) with hprg
    clear_value prg
    have hf0 : (6:ℚ)/10 ≤ prg := not_lt.mp h3
    have hf1 : prg ≤ 1 := by rw [hprg]; linarith
    set f : ℚ := (prg - 6/10) / (1 - 6/10) with hfdef
    clear_value f
    have hfa : 0 ≤ f := by
      rw [hfdef]
      exact div_nonneg (by linarith) (by norm_num)
    have hfb : f ≤ 1 := by
      rw [hfdef, div_le_one (by norm_num)]
      linarith
    have hcube0 : 0 ≤ (1 - f) ^ 3 := pow_nonneg (by linarith) 3
    have hcube1 : (1 - f) ^ 3 ≤ 1 := by
      calc (1 - f) ^ 3 ≤ 1 ^ 3 := pow_le_pow_left₀ (by linarith) (by linarith) 3
        _ = 1 := one_pow 3
    constructor <;> nlinarith
  · have hc := clamp01_mem (s.smoothedVad / (3/10))
    set c : ℚ := clamp (s.smoothedVad / (3/10)) 0 1 with hcdef
    clear_value c
    have hcc0 : 0 ≤ c ^ 3 := pow_nonneg hc.1 3
    have hcc1 : c ^ 3 ≤ 1 := by
      calc c ^ 3 ≤ 1 ^ 3 := pow_le_pow_left₀ hc.1 hc.2 3
        _ = 1 := one_pow 3
    constructor <;> nlinarith

/-- With the default configuration, the gain returned by `computeGain`
(and stored as the new `previousGain`) lies in `[minGateGain, 1]`
whenever the incoming `previousGain` does, whatever the VAD score. -/
theorem vadComputeGain_mem (s : VadGainState) (v : ℚ)
    (h1 : 3/20 ≤ s.previousGain) (h2 : s.previousGain ≤ 1) :
    3/20 ≤ (VadGain.computeGain DEFAULT_VAD_CONFIG s v).1 ∧
    (VadGain.computeGain DEFAULT_VAD_CONFIG s v).1 ≤ 1 := by
  unfold VadGain.computeGain
  have ht := vadTargetGain_mem
    { smoothedVad :=
        lerp s.smoothedVad v
          (if v > s.smoothedVad then DEFAULT_VAD_CONFIG.attackSmoothing
           else DEFAULT_VAD_CONFIG.vadSmoothingFactor)
      hangoverFrames :=
        if lerp s.smoothedVad v
            (if v > s.smoothedVad then DEFAULT_VAD_CONFIG.attackSmoothing
             else DEFAULT_VAD_CONFIG.vadSmoothingFactor) > DEFAULT_VAD_CONFIG.vadThreshold
        then DEFAULT_VAD_CONFIG.hangoverFrames
        else if 0 < s.hangoverFrames then s.hangoverFrames - 1 else s.hangoverFrames
      previousGain := s.previousGain
      targetGain := s.targetGain }
  exact lerp_mem _ h1 h2 ht.1 ht.2

/-- The state stored by `computeGain` carries the returned gain as the
new `previousGain`. -/
theorem vadComputeGain_prev (cfg : VadGainConfig) (s : VadGainState) (v : ℚ) :
    (VadGain.computeGain cfg s v).2.previousGain = (VadGain.computeGain cfg s v).1 := rfl

/-- A payload accepted by the gzip magic check starts with `0x1F 0x8B`. -/
theorem isGzipped_spec (payload : List ℕ) (h : isGzipped payload = true) :
    ∃ t, payload = 0x1f :: 0x8b :: t := by
  match payload with
  | [] => simp [isGzipped] at h
  | [_] => simp [isGzipped] at h
  | b0 :: b1 :: t =>
    simp only [isGzipped, Bool.and_eq_true, decide_eq_true_eq] at h
    exact ⟨t, by rw [h.1, h.2]⟩

/-! ## Claims -/

/-- C9: for every initialized denoiser and every buffer whose length
differs from `frame_size`, `processFrame` fails with a frame-size
mismatch error and leaves the whole state — the last VAD score, the
algorithm's internal state, and the initialized flag — unchanged. -/
theorem claim_processFrame_size_mismatch {σ : Type} (hook : σ → List ℚ → ℚ × σ)
    (frameSize : σ → ℕ) (s : DenoiserBaseState σ) (frame : List ℚ)
    (hinit : s.isInit = true) (hlen : frame.length ≠ frameSize s.alg) :
    DenoiserBase.processFrame hook frameSize s frame =
      (.error (.frameSizeMismatch (frameSize s.alg) frame.length), s) := by
  unfold DenoiserBase.processFrame
  rw [hinit]
  simp [hlen]

/-- Witness for C9: a two-sample denoiser fed a one-sample buffer. -/
theorem claim_processFrame_size_mismatch_witness :
    DenoiserBase.processFrame (fun (st : ℕ) (_ : List ℚ) => ((0:ℚ), st)) (fun _ => 2)
      { isInit := true, lastVadScore := 0, vadLogging := false, alg := 0 } [1] =
      (.error (.frameSizeMismatch 2 1),
       { isInit := true, lastVadScore := 0, vadLogging := false, alg := 0 }) :=
  claim_processFrame_size_mismatch _ _ _ _ rfl (by norm_num)

theorem int_gcd_sub_self_left {a b : ℤ} (hb : 0 < b) (hab : b < a) :
    Int.gcd (a - b) b = Int.gcd a b := by
  have h1 : (a - b).natAbs = a.natAbs - b.natAbs := by omega
  have h2 : b.natAbs ≤ a.natAbs := by omega
  rw [Int.gcd, Int.gcd, h1, Nat.gcd_sub_self_left h2]

theorem int_gcd_sub_self_right {a b : ℤ} (ha : 0 < a) (hab : a < b) :
    Int.gcd a (b - a) = Int.gcd a b := by
  have h1 : (b - a).natAbs = b.natAbs - a.natAbs := by omega
  have h2 : a.natAbs ≤ b.natAbs := by omega
  rw [Int.gcd, Int.gcd, h1, Nat.gcd_sub_self_right h2]

/-- With enough fuel, the subtractive loop computes the gcd of two
strictly positive integers. -/
theorem greatestCommonDivisor_fuel :
    ∀ (fuel : ℕ) (a b : ℤ), 0 < a → 0 < b → (a + b).toNat ≤ fuel + 2 →
      greatestCommonDivisor fuel a b = some (Int.gcd a b : ℤ) := by
  intro fuel
  induction fuel with
  | zero =>
    intro a b ha hb h
    have hab : a = 1 ∧ b = 1 := by omega
    rw [hab.1, hab.2, greatestCommonDivisor]
    norm_num [Int.gcd]
  | succ f ih =>
    intro a b ha hb h
    rw [greatestCommonDivisor]
    by_cases heq : a = b
    · subst heq
      rw [if_pos rfl]
      have : Int.gcd a a = a.natAbs := Nat.gcd_self a.natAbs
      rw [this, Int.natAbs_of_nonneg (le_of_lt ha)]
    · rw [if_neg heq]
      by_cases hgt : a > b
      · rw [if_pos hgt, ih (a - b) b (by omega) hb (by omega),
          int_gcd_sub_self_left hb hgt]
      · have hlt : a < b := by omega
        rw [if_neg hgt, ih a (b - a) ha (by omega) (by omega),
          int_gcd_sub_self_right ha hlt]

/-- The subtractive loop never terminates on the input `(0, b)` with
`b` positive: the else-branch subtracts `0` from `b` forever. -/
theorem greatestCommonDivisor_zero_diverges (b : ℤ) (hb : 0 < b) :
    ∀ fuel, greatestCommonDivisor fuel 0 b = none := by
  intro fuel
  induction fuel with
  | zero =>
    rw [greatestCommonDivisor, if_neg (by omega)]
  | succ f ih =>
    rw [greatestCommonDivisor, if_neg (by omega)]
    have h0 : ¬((0:ℤ) > b) := by omega
    rw [if_neg h0, sub_zero]
    exact ih

/-- The subtractive loop never terminates on the input `(-1, b)` with
`b` positive: `b` grows without bound. -/
theorem greatestCommonDivisor_neg_diverges :
    ∀ (fuel : ℕ) (b : ℤ), 0 < b → greatestCommonDivisor fuel (-1) b = none := by
  intro fuel
  induction fuel with
  | zero =>
    intro b hb
    rw [greatestCommonDivisor, if_neg (by omega)]
  | succ f ih =>
    intro b hb
    rw [greatestCommonDivisor, if_neg (by omega)]
    have h0 : ¬((-1:ℤ) > b) := by omega
    rw [if_neg h0, sub_neg_eq_add]
    exact ih (b + 1) (by omega)

/-- C10: for every pair of strictly positive integers, the subtractive
`greatestCommonDivisor` loop terminates (fuel `(a+b).toNat` suffices)
and returns the greatest common divisor; strict positivity is required,
since with a zero or negative argument the loop never terminates (no
amount of fuel produces a result). -/
theorem claim_gcd_correct :
    (∀ a b : ℤ, 0 < a → 0 < b →
      greatestCommonDivisor ((a + b).toNat) a b = some (Int.gcd a b : ℤ)) ∧
    (∀ fuel, greatestCommonDivisor fuel 0 1 = none) ∧
    (∀ fuel, greatestCommonDivisor fuel (-1) 1 = none) := by
  refine ⟨?_, ?_, ?_⟩
  · intro a b ha hb
    exact greatestCommonDivisor_fuel _ a b ha hb (by omega)
  · exact greatestCommonDivisor_zero_diverges 1 (by omega)
  · intro fuel
    exact greatestCommonDivisor_neg_diverges fuel 1 (by omega)

/-- Witness for C10: `gcd 6 4 = 2` through the subtractive loop. -/
theorem claim_gcd_correct_witness :
    greatestCommonDivisor ((6 + 4 : ℤ)).toNat 6 4 = some 2 := by
  have h := claim_gcd_correct.1 6 4 (by norm_num) (by norm_num)
  norm_num [Int.gcd] at h ⊢
  exact h

/-- C7: after every successful neural model load, the cached model blob
begins with the gzip magic bytes `0x1F 0x8B`: a fetched payload that
already begins with them is cached unchanged, and one that does not is
handed to the in-process re-compressor, whose failure fails the load.
The compressor `gz` stands for fflate's `gzipSync`, whose successful
output is gzip-framed by the gzip format. -/
theorem claim_model_cache_gzip_framed (gz : List ℕ → Except GzipError (List ℕ))
    (payload out : List ℕ)
    (hgz : ∀ d r, gz d = .ok r → ∃ t, r = 0x1f :: 0x8b :: t) :
    (processModelData gz payload = .ok out → ∃ t, out = 0x1f :: 0x8b :: t) ∧
    (isGzipped payload = true → processModelData gz payload = .ok payload) ∧
    (isGzipped payload = false → processModelData gz payload = gz payload) := by
  refine ⟨?_, ?_, ?_⟩
  · intro h
    unfold processModelData at h
    by_cases hg : isGzipped payload
    · rw [if_pos hg] at h
      obtain rfl : payload = out := by
        simpa using h
      exact isGzipped_spec payload hg
    · rw [if_neg hg] at h
      exact hgz payload out h
  · intro hg
    unfold processModelData
    rw [if_pos hg]
  · intro hg
    unfold processModelData
    rw [if_neg (by simp [hg])]

/-- Witness for C7: a non-gzipped payload re-compressed by a framing
compressor yields a cached blob with the magic, and a gzipped payload is
cached unchanged. -/
theorem claim_model_cache_gzip_framed_witness :
    (processModelData (fun d => .ok (0x1f :: 0x8b :: d)) [5, 6] = .ok [5, 6] →
      ∃ t, [5, 6] = 0x1f :: 0x8b :: t) ∧
    (isGzipped [5, 6] = true →
      processModelData (fun d => .ok (0x1f :: 0x8b :: d)) [5, 6] = .ok [5, 6]) ∧
    (isGzipped [5, 6] = false →
      processModelData (fun d => .ok (0x1f :: 0x8b :: d)) [5, 6] =
        (fun d => .ok (0x1f :: 0x8b :: d)) [5, 6]) :=
  claim_model_cache_gzip_framed (fun d => .ok (0x1f :: 0x8b :: d)) [5, 6] [5, 6]
    (fun d r h => ⟨d, by simpa using h.symm⟩)

/-- C3 counterexample: through the registry/factory path
`create(DEEP_FILTER_NET, config)` with the attenuation and post-filter
fields absent, the processor receives attenuation limit 80 dB and
post-filter beta 0 (the registry's `defaultConfig`), not 18 dB and
0.03. -/
theorem claim_dfn_defaults_cex :
    (Dfn.createViaRegistry { attenLimit := none, postFilterBeta := none }).attenLimit
      = some 80 ∧
    (Dfn.createViaRegistry { attenLimit := none, postFilterBeta := none }).postFilterBeta
      = some 0 ∧
    (Dfn.createViaRegistry { attenLimit := none, postFilterBeta := none }).attenLimit
      ≠ some DEFAULT_ATTEN_LIMIT ∧
    (Dfn.createViaRegistry { attenLimit := none, postFilterBeta := none }).postFilterBeta
      ≠ some DEFAULT_POST_FILTER_BETA := by
  refine ⟨rfl, rfl, ?_, ?_⟩ <;>
    simp [Dfn.createViaRegistry, Registry.mergeConfig, Dfn.constructorConfig,
      Dfn.registryDefaultConfig, DEFAULT_ATTEN_LIMIT, DEFAULT_POST_FILTER_BETA] <;>
    norm_num

/-- C3 amended: a DeepFilterNet processor constructed directly with the
attenuation and post-filter fields absent holds the defaults 18 dB and
0.03, but through the registry/factory path the registry's
`defaultConfig` fills the absent fields with 80 dB and 0 before the
constructor runs; both values remain reconfigurable via `configure`
after initialization. -/
theorem claim_dfn_defaults (c : DfnConfig) (hA : c.attenLimit = none)
    (hB : c.postFilterBeta = none) (p : DfnProcessor) (v w : ℚ)
    (hp : p.isInit = true) :
    Dfn.constructorConfig c =
      { attenLimit := some DEFAULT_ATTEN_LIMIT,
        postFilterBeta := some DEFAULT_POST_FILTER_BETA } ∧
    DEFAULT_ATTEN_LIMIT = 18 ∧ DEFAULT_POST_FILTER_BETA = 3/100 ∧
    Dfn.createViaRegistry c = { attenLimit := some 80, postFilterBeta := some 0 } ∧
    Dfn.configure p { attenLimit := some v, postFilterBeta := some w } =
      .ok { p with config := { attenLimit := some v, postFilterBeta := some w } } := by
  refine ⟨?_, rfl, rfl, ?_, ?_⟩
  · simp [Dfn.constructorConfig, hA, hB]
  · simp [Dfn.createViaRegistry, Registry.mergeConfig, Dfn.constructorConfig,
      Dfn.registryDefaultConfig, hA, hB]
  · simp [Dfn.configure, Dfn.setAttenLimit, Dfn.setPostFilterBeta, hp]

/-- Witness for C3 (amended): concrete empty config and a concrete
initialized processor reconfigured to 25 dB and beta 0.02. -/
theorem claim_dfn_defaults_witness :
    Dfn.constructorConfig { attenLimit := none, postFilterBeta := none } =
      { attenLimit := some DEFAULT_ATTEN_LIMIT,
        postFilterBeta := some DEFAULT_POST_FILTER_BETA } ∧
    DEFAULT_ATTEN_LIMIT = 18 ∧ DEFAULT_POST_FILTER_BETA = 3/100 ∧
    Dfn.createViaRegistry { attenLimit := none, postFilterBeta := none } =
      { attenLimit := some 80, postFilterBeta := some 0 } ∧
    Dfn.configure ⟨⟨some 18, some (3/100)⟩, true⟩ ⟨some 25, some (1/50)⟩ =
      .ok ⟨⟨some 25, some (1/50)⟩, true⟩ :=
  claim_dfn_defaults ⟨none, none⟩ rfl rfl ⟨⟨some 18, some (3/100)⟩, true⟩
    25 (1/50) rfl

/-- C2 counterexample: after a `load()` whose fetch fails, the loader's
status is `ERROR`, not `NOT_LOADED`. -/
theorem claim_loader_failure_status_cex :
    (WasmLoader.run WasmLoader.init [.load, .resolveErr]).status = .error ∧
    (WasmLoader.run WasmLoader.init [.load, .resolveErr]).status ≠ .notLoaded := by
  constructor <;> decide

/-- C2 amended: when a `load()` fails, the loader transitions to the
`ERROR` status (not `NOT_LOADED`) with no module cached, and a
subsequent `load()` call invokes the underlying fetch closure again,
moving back to `LOADING`. -/
theorem claim_loader_retry_after_failure (s : WasmLoaderState)
    (h : s.status = .loading) :
    (WasmLoader.step s .resolveErr).status = .error ∧
    (WasmLoader.step s .resolveErr).module = none ∧
    (WasmLoader.load (WasmLoader.step s .resolveErr)).fetchCount =
      (WasmLoader.step s .resolveErr).fetchCount + 1 ∧
    (WasmLoader.load (WasmLoader.step s .resolveErr)).status = .loading := by
  refine ⟨rfl, rfl, ?_, ?_⟩ <;>
    simp [WasmLoader.load, WasmLoader.loadAction, WasmLoader.step]

/-- Witness for C2 (amended): the concrete loader state reached by one
`load()` from a fresh loader. -/
theorem claim_loader_retry_after_failure_witness :
    (WasmLoader.step ⟨.loading, none, some 0, 1⟩ .resolveErr).status = .error ∧
    (WasmLoader.step ⟨.loading, none, some 0, 1⟩ .resolveErr).module = none ∧
    (WasmLoader.load (WasmLoader.step ⟨.loading, none, some 0, 1⟩ .resolveErr)).fetchCount =
      (WasmLoader.step ⟨.loading, none, some 0, 1⟩ .resolveErr).fetchCount + 1 ∧
    (WasmLoader.load (WasmLoader.step ⟨.loading, none, some 0, 1⟩ .resolveErr)).status =
      .loading :=
  claim_loader_retry_after_failure ⟨.loading, none, some 0, 1⟩ rfl

/-- C8: `doProcessFrame` writes each input sample times `32767` into the
kernel input scratch, invokes the kernel once obtaining the VAD score,
and writes back each kernel output sample times `1/32767` and times the
smoothed post-gain; the post-gain target computed from the smoothed VAD
`0.7·vad + 0.3·prev` is `1` above `0.5`, linear between `0.2` and `0.5`,
and bounded below by the minimum output gain `0.1` below `0.2` (itself a
linear ramp); smoothing uses attack coefficient `0.3` when the target
rises above the current gain and release coefficient `0.05` otherwise. -/
theorem claim_rnnoise_processing {n : ℕ} (K : RNNoiseKernel n) (s : RNNoiseState)
    (frame : Fin n → ℚ) (hprev : 0 ≤ s.prevVadScore) :
    (∀ v, RNNoise.smoothVad s v > 1/2 → RNNoise.computeTargetGain s v = 1) ∧
    (∀ v, 1/5 ≤ RNNoise.smoothVad s v → RNNoise.smoothVad s v ≤ 1/2 →
      RNNoise.computeTargetGain s v =
        1/2 + (RNNoise.smoothVad s v - 1/5) / (3/10) * (1/2)) ∧
    (∀ v, 0 ≤ v → RNNoise.smoothVad s v < 1/5 →
      RNNoise.computeTargetGain s v =
        MIN_OUTPUT_GAIN + RNNoise.smoothVad s v / (1/5) * (1/2 - MIN_OUTPUT_GAIN) ∧
      MIN_OUTPUT_GAIN ≤ RNNoise.computeTargetGain s v) ∧
    (∀ v, RNNoise.smoothVad s v = 7/10 * v + 3/10 * s.prevVadScore) ∧
    (∀ v, RNNoise.smoothedGainNext s v =
      s.smoothedGain +
        (if RNNoise.computeTargetGain s v > s.smoothedGain then GAIN_ATTACK_COEFF
         else GAIN_RELEASE_COEFF) * (RNNoise.computeTargetGain s v - s.smoothedGain)) ∧
    (∀ i, (RNNoise.doProcessFrame K s frame).1 i =
      (K (fun j => frame j * SCALE_TO_INT16)).1 i * SCALE_FROM_INT16 *
        RNNoise.smoothedGainNext s (K (fun j => frame j * SCALE_TO_INT16)).2) ∧
    (RNNoise.doProcessFrame K s frame).2.1 = (K (fun j => frame j * SCALE_TO_INT16)).2 ∧
    (RNNoise.doProcessFrame K s frame).2.2 =
      { smoothedGain :=
          RNNoise.smoothedGainNext s (K (fun j => frame j * SCALE_TO_INT16)).2,
        prevVadScore := (K (fun j => frame j * SCALE_TO_INT16)).2 } ∧
    GAIN_ATTACK_COEFF = 3/10 ∧ GAIN_RELEASE_COEFF = 5/100 ∧ MIN_OUTPUT_GAIN = 1/10 ∧
    SCALE_TO_INT16 = 32767 ∧ SCALE_FROM_INT16 = 1/32767 := by
  refine ⟨?_, ?_, ?_, fun _ => rfl, fun _ => rfl, fun _ => rfl, rfl, rfl,
    rfl, rfl, rfl, rfl, rfl⟩
  · intro v hv
    unfold RNNoise.computeTargetGain
    rw [if_pos hv]
  · intro v hv1 hv2
    unfold RNNoise.computeTargetGain
    rw [if_neg (not_lt.mpr hv2), if_neg (not_lt.mpr hv1)]
  · intro v hv0 hv1
    have hsv0 : 0 ≤ RNNoise.smoothVad s v := by
      unfold RNNoise.smoothVad
      linarith
    constructor
    · unfold RNNoise.computeTargetGain
      rw [if_neg (by intro h; linarith), if_pos hv1]
    · unfold RNNoise.computeTargetGain
      rw [if_neg (by intro h; linarith), if_pos hv1]
      unfold MIN_OUTPUT_GAIN
      nlinarith

/-- Witness for C8: a kernel reporting VAD `0.9` from a fresh processor
state puts the smoothed VAD at `0.63 > 0.5`, so the target gain is 1. -/
theorem claim_rnnoise_processing_witness :
    RNNoise.computeTargetGain RNNoise.initState (9/10) = 1 :=
  (claim_rnnoise_processing ((fun inp => (inp, 9/10)) : RNNoiseKernel 1) RNNoise.initState
      (fun _ => 1/2) (le_refl 0)).1 (9/10)
    (by norm_num [RNNoise.smoothVad, RNNoise.initState])

/-- Bounds for `runGains` and `runState` from any state whose
`previousGain` is inside `[minGateGain, 1]`. -/
theorem vadGain_run_inv : ∀ (vs : List ℚ) (s : VadGainState),
    3/20 ≤ s.previousGain → s.previousGain ≤ 1 →
    (∀ g ∈ VadGain.runGains DEFAULT_VAD_CONFIG s vs, 3/20 ≤ g ∧ g ≤ 1) ∧
    3/20 ≤ (VadGain.runState DEFAULT_VAD_CONFIG s vs).previousGain ∧
    (VadGain.runState DEFAULT_VAD_CONFIG s vs).previousGain ≤ 1 := by
  intro vs
  induction vs with
  | nil =>
    intro s h1 h2
    exact ⟨by simp [VadGain.runGains], h1, h2⟩
  | cons v vs ih =>
    intro s h1 h2
    have hg := vadComputeGain_mem s v h1 h2
    have hnext := ih (VadGain.computeGain DEFAULT_VAD_CONFIG s v).2
      (by rw [vadComputeGain_prev]; exact hg.1)
      (by rw [vadComputeGain_prev]; exact hg.2)
    refine ⟨?_, hnext.2.1, hnext.2.2⟩
    intro g hmem
    rw [VadGain.runGains] at hmem
    rcases List.mem_cons.mp hmem with rfl | hmem
    · exact hg
    · exact hnext.1 g hmem

/-- C5: fed any sequence of VAD scores in `[0, 1]` from the initial
state under the default configuration, every gain returned by
`computeGain` lies in `[minGateGain, 1]`, and `previousGain` lies in
`[minGateGain, 1]` after every call. -/
theorem claim_vadGain_range (vs : List ℚ) (hv : ∀ v ∈ vs, 0 ≤ v ∧ v ≤ 1) :
    (∀ g ∈ VadGain.runGains DEFAULT_VAD_CONFIG VadGain.initialState vs,
      DEFAULT_VAD_CONFIG.minGateGain ≤ g ∧ g ≤ 1) ∧
    (∀ pre suf, vs = pre ++ suf →
      DEFAULT_VAD_CONFIG.minGateGain ≤
        (VadGain.runState DEFAULT_VAD_CONFIG VadGain.initialState pre).previousGain ∧
      (VadGain.runState DEFAULT_VAD_CONFIG VadGain.initialState pre).previousGain ≤ 1) := by
  have hmg : DEFAULT_VAD_CONFIG.minGateGain = 3/20 := by norm_num [DEFAULT_VAD_CONFIG]
  constructor
  · intro g hg
    have h := (vadGain_run_inv vs VadGain.initialState (by norm_num [VadGain.initialState])
      (by norm_num [VadGain.initialState])).1 g hg
    rw [hmg]
    exact h
  · intro pre suf hsplit
    have h := vadGain_run_inv pre VadGain.initialState (by norm_num [VadGain.initialState])
      (by norm_num [VadGain.initialState])
    rw [hmg]
    exact ⟨h.2.1, h.2.2⟩

/-- Witness for C5: the concrete score sequence `[1/2, 0]`. -/
theorem claim_vadGain_range_witness :
    (∀ g ∈ VadGain.runGains DEFAULT_VAD_CONFIG VadGain.initialState [1/2, 0],
      DEFAULT_VAD_CONFIG.minGateGain ≤ g ∧ g ≤ 1) ∧
    (∀ pre suf, ([1/2, 0] : List ℚ) = pre ++ suf →
      DEFAULT_VAD_CONFIG.minGateGain ≤
        (VadGain.runState DEFAULT_VAD_CONFIG VadGain.initialState pre).previousGain ∧
      (VadGain.runState DEFAULT_VAD_CONFIG VadGain.initialState pre).previousGain ≤ 1) :=
  claim_vadGain_range [1/2, 0] (by norm_num)

/-- One-call unfolding of `computeGain` at the default configuration. -/
theorem vadComputeGain_unfold (s : VadGainState) (v : ℚ) :
    VadGain.computeGain DEFAULT_VAD_CONFIG s v =
      (let sv := lerp s.smoothedVad v (if v > s.smoothedVad then 15/100 else 8/100)
       let h := if sv > 3/10 then 45
                else if 0 < s.hangoverFrames then s.hangoverFrames - 1
                else s.hangoverFrames
       let tg := VadGain.computeTargetGain DEFAULT_VAD_CONFIG
         { smoothedVad := sv, hangoverFrames := h,
           previousGain := s.previousGain, targetGain := s.targetGain }
       let g := lerp s.previousGain tg (if tg > s.previousGain then 15/100 else 3/100)
       (g, { smoothedVad := sv, hangoverFrames := h, previousGain := g, targetGain := tg })) :=
  rfl

theorem lerp_lt_one {a b t : ℚ} (ha : a < 1) (hb : b ≤ 1) (ht : clamp t 0 1 < 1) :
    lerp a b t < 1 := by
  have h := clamp01_mem t
  unfold lerp
  nlinarith

/-- A `computeGain(1)` call pushes the smoothed VAD at least as far as
the attack lerp does. -/
theorem vadGain_one_sv (s : VadGainState) (h0 : 0 ≤ s.smoothedVad)
    (h1 : s.smoothedVad ≤ 1) :
    17/20 * s.smoothedVad + 3/20 ≤
      (VadGain.computeGain DEFAULT_VAD_CONFIG s 1).2.smoothedVad ∧
    (VadGain.computeGain DEFAULT_VAD_CONFIG s 1).2.smoothedVad ≤ 1 := by
  rw [vadComputeGain_unfold]
  by_cases hc : (1:ℚ) > s.smoothedVad
  · simp only [if_pos hc]
    unfold lerp clamp
    norm_num
    constructor <;> nlinarith
  · have heq : s.smoothedVad = 1 := le_antisymm h1 (not_lt.mp hc)
    simp only [if_neg hc]
    unfold lerp clamp
    rw [heq]
    norm_num

/-- Once `previousGain` has dropped strictly below 1, it stays strictly
below 1 through any further `computeGain` call. -/
theorem vadGain_prev_lt_one (s : VadGainState) (v : ℚ)
    (h : s.previousGain < 1) :
    (VadGain.computeGain DEFAULT_VAD_CONFIG s v).2.previousGain < 1 := by
  rw [vadComputeGain_unfold]
  have htg := vadTargetGain_mem
    { smoothedVad := lerp s.smoothedVad v (if v > s.smoothedVad then 15/100 else 8/100)
      hangoverFrames :=
        if lerp s.smoothedVad v (if v > s.smoothedVad then 15/100 else 8/100) > 3/10 then 45
        else if 0 < s.hangoverFrames then s.hangoverFrames - 1
        else s.hangoverFrames
      previousGain := s.previousGain, targetGain := s.targetGain }
  refine lerp_lt_one h htg.2 ?_
  split_ifs <;> norm_num [clamp]

/-- A target gain strictly below 1 keeps the gain strictly below 1 even
from `previousGain = 1` (the release lerp moves toward the target). -/
theorem lerp_release_lt_one {tg : ℚ} (h : tg < 1) :
    lerp 1 tg (if tg > 1 then (15:ℚ)/100 else 3/100) < 1 := by
  rw [if_neg (by linarith)]
  unfold lerp clamp
  norm_num
  nlinarith

/-- On a state with smoothed VAD at most `3/20` and no hangover, the
target gain is strictly below 1 (the soft-gating branch). -/
theorem vadTargetGain_small_lt_one (s : VadGainState)
    (hsv : s.smoothedVad ≤ 3/20) (hh : s.hangoverFrames = 0) :
    VadGain.computeTargetGain DEFAULT_VAD_CONFIG s < 1 := by
  unfold VadGain.computeTargetGain
  rw [if_neg (by simp only [DEFAULT_VAD_CONFIG]; intro hgt; norm_num at hgt; linarith), hh]
  simp only [lt_irrefl, if_false, DEFAULT_VAD_CONFIG]
  have hx : s.smoothedVad / (3/10) ≤ 1/2 := by
    rw [div_le_iff (by norm_num)]
    linarith
  have hc := clamp01_mem (s.smoothedVad / (3/10))
  have hcu : clamp (s.smoothedVad / (3/10)) 0 1 ≤ 1/2 := by
    unfold clamp
    refine max_le (by norm_num) ?_
    exact le_trans (min_le_right _ _) hx
  have hcube : clamp (s.smoothedVad / (3/10)) 0 1 ^ 3 ≤ (1/2) ^ 3 :=
    pow_le_pow_left₀ hc.1 hcu 3
  norm_num
  nlinarith

/-- The very first `computeGain` call from the initial state returns a
gain strictly below 1, for any score in `[0, 1]`. -/
theorem vadGain_first_call_lt_one (v : ℚ) (h0 : 0 ≤ v) (h1 : v ≤ 1) :
    (VadGain.computeGain DEFAULT_VAD_CONFIG VadGain.initialState v).2.previousGain < 1 := by
  rw [vadComputeGain_unfold]
  have hsv : lerp VadGain.initialState.smoothedVad v
      (if v > VadGain.initialState.smoothedVad then (15:ℚ)/100 else 8/100) ≤ 3/20 := by
    unfold VadGain.initialState lerp clamp
    by_cases hv : v > 0
    · rw [if_pos hv]
      norm_num
      nlinarith
    · rw [if_neg hv]
      have : v = 0 := le_antisymm (not_lt.mp hv) h0
      rw [this]
      norm_num
  have hnotgt : ¬(lerp VadGain.initialState.smoothedVad v
      (if v > VadGain.initialState.smoothedVad then (15:ℚ)/100 else 8/100) > 3/10) := by
    intro hgt
    linarith
  simp only [hnotgt, if_false]
  have htg := vadTargetGain_small_lt_one
    { smoothedVad := lerp VadGain.initialState.smoothedVad v
        (if v > VadGain.initialState.smoothedVad then (15:ℚ)/100 else 8/100)
      hangoverFrames :=
        if 0 < VadGain.initialState.hangoverFrames then
          VadGain.initialState.hangoverFrames - 1
        else VadGain.initialState.hangoverFrames
      previousGain := VadGain.initialState.previousGain
      targetGain := VadGain.initialState.targetGain }
    hsv (by norm_num [VadGain.initialState])
  exact lerp_release_lt_one htg

/-- Invariant of all reachable VAD-gain states: the smoothed VAD stays
in `[0, 1]`, `previousGain` stays in `[minGateGain, 1]`, and — except at
the initial state itself — `previousGain` is strictly below 1. -/
theorem vadGain_reachable_inv (s : VadGainState)
    (hs : VadGain.Reachable DEFAULT_VAD_CONFIG s) :
    0 ≤ s.smoothedVad ∧ s.smoothedVad ≤ 1 ∧
    3/20 ≤ s.previousGain ∧ s.previousGain ≤ 1 ∧
    (s = VadGain.initialState ∨ s.previousGain < 1) := by
  obtain ⟨vs, hvs, rfl⟩ := hs
  rcases vs with _ | ⟨v, rest⟩
  · refine ⟨by norm_num [VadGain.runState, VadGain.initialState],
      by norm_num [VadGain.runState, VadGain.initialState],
      by norm_num [VadGain.runState, VadGain.initialState],
      by norm_num [VadGain.runState, VadGain.initialState], Or.inl rfl⟩
  · have hv := hvs v (List.mem_cons_self v rest)
    have hrest : ∀ w ∈ rest, 0 ≤ w ∧ w ≤ 1 :=
      fun w hw => hvs w (List.mem_cons_of_mem v hw)
    have hstep : ∀ (ws : List ℚ) (t : VadGainState), (∀ w ∈ ws, 0 ≤ w ∧ w ≤ 1) →
        0 ≤ t.smoothedVad → t.smoothedVad ≤ 1 →
        3/20 ≤ t.previousGain → t.previousGain ≤ 1 → t.previousGain < 1 →
        0 ≤ (VadGain.runState DEFAULT_VAD_CONFIG t ws).smoothedVad ∧
        (VadGain.runState DEFAULT_VAD_CONFIG t ws).smoothedVad ≤ 1 ∧
        3/20 ≤ (VadGain.runState DEFAULT_VAD_CONFIG t ws).previousGain ∧
        (VadGain.runState DEFAULT_VAD_CONFIG t ws).previousGain ≤ 1 ∧
        (VadGain.runState DEFAULT_VAD_CONFIG t ws).previousGain < 1 := by
      intro ws
      induction ws with
      | nil =>
        intro t _ a b c d e
        exact ⟨a, b, c, d, e⟩
      | cons w ws ih =>
        intro t hws a b c d e
        have hw := hws w (List.mem_cons_self w ws)
        have hsv : 0 ≤ (VadGain.computeGain DEFAULT_VAD_CONFIG t w).2.smoothedVad ∧
            (VadGain.computeGain DEFAULT_VAD_CONFIG t w).2.smoothedVad ≤ 1 := by
          rw [vadComputeGain_unfold]
          exact lerp_mem _ a b hw.1 hw.2
        have hpg := vadComputeGain_mem t w c d
        have hlt := vadGain_prev_lt_one t w e
        exact ih (VadGain.computeGain DEFAULT_VAD_CONFIG t w).2
          (fun x hx => hws x (List.mem_cons_of_mem w hx))
          hsv.1 hsv.2 (by rw [vadComputeGain_prev]; exact hpg.1)
          (by rw [vadComputeGain_prev]; exact hpg.2) hlt
    have hfirst_sv : 0 ≤ (VadGain.computeGain DEFAULT_VAD_CONFIG VadGain.initialState v).2.smoothedVad ∧
        (VadGain.computeGain DEFAULT_VAD_CONFIG VadGain.initialState v).2.smoothedVad ≤ 1 := by
      rw [vadComputeGain_unfold]
      exact lerp_mem _ (by norm_num [VadGain.initialState]) (by norm_num [VadGain.initialState])
        hv.1 hv.2
    have hfirst_pg := vadComputeGain_mem VadGain.initialState v
      (by norm_num [VadGain.initialState]) (by norm_num [VadGain.initialState])
    have hfirst_lt := vadGain_first_call_lt_one v hv.1 hv.2
    have h := hstep rest (VadGain.computeGain DEFAULT_VAD_CONFIG VadGain.initialState v).2
      hrest hfirst_sv.1 hfirst_sv.2
      (by rw [vadComputeGain_prev]; exact hfirst_pg.1)
      (by rw [vadComputeGain_prev]; exact hfirst_pg.2) hfirst_lt
    exact ⟨h.1, h.2.1, h.2.2.1, h.2.2.2.1, Or.inr h.2.2.2.2⟩

/-- A `computeGain(1)` call from a state with smoothed VAD above the
threshold and gain strictly below 1: the target is 1 and the gain
attacks toward 1 with coefficient `15/100`. -/
theorem vadGain_hot_step (s : VadGainState) (h1 : 3/10 < s.smoothedVad)
    (h2 : s.smoothedVad ≤ 1) (h3 : 3/20 ≤ s.previousGain)
    (h4 : s.previousGain < 1) :
    3/10 < (VadGain.computeGain DEFAULT_VAD_CONFIG s 1).2.smoothedVad ∧
    (VadGain.computeGain DEFAULT_VAD_CONFIG s 1).2.smoothedVad ≤ 1 ∧
    (VadGain.computeGain DEFAULT_VAD_CONFIG s 1).2.previousGain =
      s.previousGain + 15/100 * (1 - s.previousGain) ∧
    3/20 ≤ (VadGain.computeGain DEFAULT_VAD_CONFIG s 1).2.previousGain ∧
    (VadGain.computeGain DEFAULT_VAD_CONFIG s 1).2.previousGain < 1 := by
  have hsv := vadGain_one_sv s (by linarith) h2
  have hsv3 : 3/10 < (VadGain.computeGain DEFAULT_VAD_CONFIG s 1).2.smoothedVad := by
    nlinarith [hsv.1]
  refine ⟨hsv3, hsv.2, ?_⟩
  have htg1 : VadGain.computeTargetGain DEFAULT_VAD_CONFIG
      { smoothedVad := (VadGain.computeGain DEFAULT_VAD_CONFIG s 1).2.smoothedVad
        hangoverFrames := (VadGain.computeGain DEFAULT_VAD_CONFIG s 1).2.hangoverFrames
        previousGain := s.previousGain, targetGain := s.targetGain } = 1 := by
    unfold VadGain.computeTargetGain
    rw [if_pos]
    exact hsv3
  have hform : (VadGain.computeGain DEFAULT_VAD_CONFIG s 1).2.previousGain =
      s.previousGain + 15/100 * (1 - s.previousGain) := by
    conv_lhs => rw [vadComputeGain_unfold]
    have htg1' := htg1
    rw [vadComputeGain_unfold] at htg1'
    simp only at htg1' ⊢
    rw [htg1', if_pos h4]
    unfold lerp clamp
    norm_num
    ring
  refine ⟨hform, ?_, ?_⟩
  · rw [hform]; nlinarith
  · rw [hform]; nlinarith

/-- Iterating `computeGain(1)` from a state above threshold: the gain
climbs geometrically toward 1 and never reaches it. -/
theorem vadGain_attack_loop : ∀ (m : ℕ) (s : VadGainState),
    3/10 < s.smoothedVad → s.smoothedVad ≤ 1 →
    3/20 ≤ s.previousGain → s.previousGain < 1 →
    3/20 ≤ (VadGain.callsOne DEFAULT_VAD_CONFIG m s).previousGain ∧
    (VadGain.callsOne DEFAULT_VAD_CONFIG m s).previousGain < 1 ∧
    1 - (VadGain.callsOne DEFAULT_VAD_CONFIG m s).previousGain ≤
      (17/20)^m * (1 - s.previousGain) := by
  intro m
  induction m with
  | zero =>
    intro s h1 h2 h3 h4
    exact ⟨h3, h4, by norm_num [VadGain.callsOne]⟩
  | succ k ih =>
    intro s h1 h2 h3 h4
    have hstep := vadGain_hot_step s h1 h2 h3 h4
    have hrec := ih (VadGain.computeGain DEFAULT_VAD_CONFIG s 1).2
      hstep.1 hstep.2.1 hstep.2.2.2.1 hstep.2.2.2.2
    have hcalls : VadGain.callsOne DEFAULT_VAD_CONFIG (k + 1) s =
        VadGain.callsOne DEFAULT_VAD_CONFIG k (VadGain.computeGain DEFAULT_VAD_CONFIG s 1).2 :=
      rfl
    rw [hcalls]
    refine ⟨hrec.1, hrec.2.1, ?_⟩
    have hgeom : 1 - (VadGain.computeGain DEFAULT_VAD_CONFIG s 1).2.previousGain =
        17/20 * (1 - s.previousGain) := by
      rw [hstep.2.2.1]; ring
    calc 1 - (VadGain.callsOne DEFAULT_VAD_CONFIG k
            (VadGain.computeGain DEFAULT_VAD_CONFIG s 1).2).previousGain
        ≤ (17/20)^k * (1 - (VadGain.computeGain DEFAULT_VAD_CONFIG s 1).2.previousGain) :=
          hrec.2.2
      _ = (17/20)^k * (17/20 * (1 - s.previousGain)) := by rw [hgeom]
      _ = (17/20)^(k+1) * (1 - s.previousGain) := by ring

/-- C6 counterexample: from the initial state (which is reachable),
after `⌈1/attack_smoothing⌉ = 7` consecutive `computeGain` calls with
constant score 1, the returned gain — the `previousGain` of the
resulting state — is strictly below 1, not exactly 1. -/
theorem claim_vadGain_attack_cex :
    (VadGain.callsOne DEFAULT_VAD_CONFIG 7 VadGain.initialState).previousGain < 1 ∧
    (VadGain.callsOne DEFAULT_VAD_CONFIG 7 VadGain.initialState).previousGain ≠ 1 := by
  norm_num [VadGain.callsOne, VadGain.computeGain, VadGain.computeTargetGain,
    VadGain.initialState, DEFAULT_VAD_CONFIG, lerp, clamp, min_def, max_def]

/-- C6 amended: from any reachable state under the default
configuration, after `k ≥ 3` consecutive `computeGain` calls with
constant score 1, the returned gain is within `(1 - attack_smoothing)^(k-3)`
of 1 from below, but remains strictly below 1 — it converges to 1
geometrically without ever reaching it exactly. -/
theorem claim_vadGain_attack_convergence (s : VadGainState)
    (hs : VadGain.Reachable DEFAULT_VAD_CONFIG s) (k : ℕ) (hk : 3 ≤ k) :
    1 - (17/20)^(k-3) ≤ (VadGain.callsOne DEFAULT_VAD_CONFIG k s).previousGain ∧
    (VadGain.callsOne DEFAULT_VAD_CONFIG k s).previousGain < 1 := by
  obtain ⟨m, rfl⟩ : ∃ m, k = m + 3 := ⟨k - 3, by omega⟩
  have hinv := vadGain_reachable_inv s hs
  -- first call
  have h1lt : (VadGain.computeGain DEFAULT_VAD_CONFIG s 1).2.previousGain < 1 := by
    rcases hinv.2.2.2.2 with hinit | hlt
    · rw [hinit]
      exact vadGain_first_call_lt_one 1 (by norm_num) (by norm_num)
    · exact vadGain_prev_lt_one s 1 hlt
  have h1pg := vadComputeGain_mem s 1 hinv.2.2.1 hinv.2.2.2.1
  have h1sv := vadGain_one_sv s hinv.1 hinv.2.1
  set s1 := (VadGain.computeGain DEFAULT_VAD_CONFIG s 1).2 with hs1
  have h1sv0 : 3/20 ≤ s1.smoothedVad := by nlinarith [h1sv.1, hinv.1]
  -- second call
  have h2lt : (VadGain.computeGain DEFAULT_VAD_CONFIG s1 1).2.previousGain < 1 :=
    vadGain_prev_lt_one s1 1 h1lt
  have h2pg := vadComputeGain_mem s1 1
    (by rw [hs1, vadComputeGain_prev]; exact h1pg.1)
    (by rw [hs1, vadComputeGain_prev]; exact h1pg.2)
  have h2sv := vadGain_one_sv s1 (by linarith) h1sv.2
  set s2 := (VadGain.computeGain DEFAULT_VAD_CONFIG s1 1).2 with hs2
  have h2sv0 : 111/400 ≤ s2.smoothedVad := by nlinarith [h2sv.1]
  -- third call
  have h3lt : (VadGain.computeGain DEFAULT_VAD_CONFIG s2 1).2.previousGain < 1 :=
    vadGain_prev_lt_one s2 1 h2lt
  have h3pg := vadComputeGain_mem s2 1
    (by rw [hs2, vadComputeGain_prev]; exact h2pg.1)
    (by rw [hs2, vadComputeGain_prev]; exact h2pg.2)
  have h3sv := vadGain_one_sv s2 (by linarith) h2sv.2
  set s3 := (VadGain.computeGain DEFAULT_VAD_CONFIG s2 1).2 with hs3
  have h3sv0 : 3/10 < s3.smoothedVad := by nlinarith [h3sv.1]
  -- the remaining m calls attack toward 1
  have hloop := vadGain_attack_loop m s3 h3sv0 h3sv.2
    (by rw [hs3, vadComputeGain_prev]; exact h3pg.1) h3lt
  have hcalls : VadGain.callsOne DEFAULT_VAD_CONFIG (m + 3) s =
      VadGain.callsOne DEFAULT_VAD_CONFIG m s3 := rfl
  rw [hcalls]
  have hsub : m + 3 - 3 = m := by omega
  rw [hsub]
  have h3prev0 : 0 ≤ s3.previousGain := by
    have := h3pg.1
    rw [hs3, vadComputeGain_prev]
    linarith [h3pg.1]
  refine ⟨?_, hloop.2.1⟩
  have hpow : (0:ℚ) ≤ (17/20)^m := by positivity
  have hbound : 1 - (VadGain.callsOne DEFAULT_VAD_CONFIG m s3).previousGain ≤
      (17/20)^m * (1 - s3.previousGain) := hloop.2.2
  nlinarith [hbound, hpow, h3prev0]

/-- Witness for C6 (amended): the initial state (reachable via the empty
call sequence) and `k = 3`. -/
theorem claim_vadGain_attack_convergence_witness :
    1 - (17/20 : ℚ)^(3-3) ≤
      (VadGain.callsOne DEFAULT_VAD_CONFIG 3 VadGain.initialState).previousGain ∧
    (VadGain.callsOne DEFAULT_VAD_CONFIG 3 VadGain.initialState).previousGain < 1 :=
  claim_vadGain_attack_convergence VadGain.initialState
    ⟨[], by simp, rfl⟩ 3 (le_refl 3)

/-- Invariant of `WasmLoader` states reachable through benign events:
the fetch ran exactly once iff the loader has left `NOT_LOADED`. -/
def WasmLoader.Inv (s : WasmLoaderState) : Prop :=
  (s.status = .notLoaded ∧ s.fetchCount = 0 ∧ s.module = none) ∨
  (s.status = .loading ∧ s.fetchCount = 1 ∧ s.loadPromise.isSome = true) ∨
  (s.status = .loaded ∧ s.fetchCount = 1 ∧ s.module.isSome = true)

theorem wasmLoader_load_inv (s : WasmLoaderState) (hi : WasmLoader.Inv s) :
    WasmLoader.Inv (WasmLoader.load s) ∧ (WasmLoader.load s).fetchCount = 1 := by
  rcases hi with ⟨h1, h2, h3⟩ | ⟨h1, h2, h3⟩ | ⟨h1, h2, h3⟩
  · have : WasmLoader.loadAction s = .startFetch s.fetchCount := by
      unfold WasmLoader.loadAction
      rw [if_neg (by rw [h1]; simp), if_neg (by rw [h1]; simp)]
    unfold WasmLoader.load
    rw [this]
    refine ⟨Or.inr (Or.inl ⟨rfl, by rw [h2], by simp⟩), by rw [h2]⟩
  · have : WasmLoader.loadAction s = .awaitPromise (s.loadPromise.getD 0) := by
      unfold WasmLoader.loadAction
      rw [if_neg (by rw [h1]; simp), if_pos ⟨h1, h3⟩]
    unfold WasmLoader.load
    rw [this]
    exact ⟨Or.inr (Or.inl ⟨h1, h2, h3⟩), h2⟩
  · have : WasmLoader.loadAction s = .cached (s.module.getD 0) := by
      unfold WasmLoader.loadAction
      rw [if_pos ⟨h1, h3⟩]
    unfold WasmLoader.load
    rw [this]
    exact ⟨Or.inr (Or.inr ⟨h1, h2, h3⟩), h2⟩

theorem wasmLoader_resolveOk_inv (s : WasmLoaderState) (m : ℕ)
    (hi : WasmLoader.Inv s) (hv : s.status = .loading) :
    WasmLoader.Inv (WasmLoader.step s (.resolveOk m)) ∧
    (WasmLoader.step s (.resolveOk m)).fetchCount = s.fetchCount := by
  rcases hi with ⟨h1, _, _⟩ | ⟨_, h2, _⟩ | ⟨h1, _, _⟩
  · rw [h1] at hv; exact absurd hv (by simp)
  · exact ⟨Or.inr (Or.inr ⟨rfl, h2, by simp [WasmLoader.step]⟩), rfl⟩
  · rw [h1] at hv; exact absurd hv (by simp)

/-- Benign valid traces keep the invariant, never run a second fetch,
and run the fetch at least once as soon as one `load()` occurs. -/
theorem wasmLoader_run_single_flight : ∀ (tr : List WasmLoaderEvent) (s : WasmLoaderState),
    WasmLoader.Inv s → (∀ e ∈ tr, e.benign = true) → WasmLoader.valid s tr = true →
    WasmLoader.Inv (WasmLoader.run s tr) ∧
    (s.fetchCount = 1 → (WasmLoader.run s tr).fetchCount = 1) ∧
    (WasmLoaderEvent.load ∈ tr → (WasmLoader.run s tr).fetchCount = 1) := by
  intro tr
  induction tr with
  | nil =>
    intro s hi _ _
    exact ⟨hi, fun h => h, fun h => absurd h (List.not_mem_nil _)⟩
  | cons e es ih =>
    intro s hi hb hv
    have hbe := hb e (List.mem_cons_self e es)
    have hbes : ∀ x ∈ es, x.benign = true := fun x hx => hb x (List.mem_cons_of_mem e hx)
    cases e with
    | load =>
      have hv2 : WasmLoader.valid (WasmLoader.step s .load) es = true := by
        simpa [WasmLoader.valid] using hv
      have hl := wasmLoader_load_inv s hi
      have hrec := ih (WasmLoader.load s) hl.1 hbes hv2
      exact ⟨hrec.1, fun _ => hrec.2.1 hl.2, fun _ => hrec.2.1 hl.2⟩
    | resolveOk m =>
      have hv2 : s.status = .loading ∧
          WasmLoader.valid (WasmLoader.step s (.resolveOk m)) es = true := by
        simpa [WasmLoader.valid] using hv
      have hr := wasmLoader_resolveOk_inv s m hi hv2.1
      have hrec := ih (WasmLoader.step s (.resolveOk m)) hr.1 hbes hv2.2
      refine ⟨hrec.1, fun h1 => hrec.2.1 (by rw [hr.2]; exact h1), fun hmem => ?_⟩
      rcases List.mem_cons.mp hmem with heq | hmem'
      · exact absurd heq (by simp)
      · exact hrec.2.2 hmem'
    | resolveErr => exact absurd hbe (by simp [WasmLoaderEvent.benign])
    | reset => exact absurd hbe (by simp [WasmLoaderEvent.benign])

/-- Invariant of `DeepFilterNetLoader` states reachable through benign
events. -/
def DfnLoader.Inv (s : DfnLoaderState) : Prop :=
  (s.fetchCount = 0 ∧ s.wasmData = none ∧ s.isLoading = false ∧ s.waiters = 0) ∨
  (s.fetchCount = 1 ∧
    ((s.isLoading = true ∧ s.wasmData = none) ∨
     (s.isLoading = false ∧ s.wasmData.isSome = true)))

theorem dfnLoader_call_inv (s : DfnLoaderState) (hi : DfnLoader.Inv s) :
    DfnLoader.Inv (DfnLoader.step s .call) ∧ (DfnLoader.step s .call).fetchCount = 1 := by
  rcases hi with ⟨h1, h2, h3, h4⟩ | ⟨h1, ⟨h2, h3⟩ | ⟨h2, h3⟩⟩
  · have : DfnLoader.step s .call =
        { s with isLoading := true, fetchCount := s.fetchCount + 1 } := by
      unfold DfnLoader.step
      rw [if_neg (by rw [h2]; simp), if_neg (by rw [h3]; simp)]
    rw [this]
    exact ⟨Or.inr ⟨by simp [h1], Or.inl ⟨rfl, h2⟩⟩, by simp [h1]⟩
  · have : DfnLoader.step s .call = { s with waiters := s.waiters + 1 } := by
      unfold DfnLoader.step
      rw [if_neg (by rw [h3]; simp), if_pos h2]
    rw [this]
    exact ⟨Or.inr ⟨h1, Or.inl ⟨h2, h3⟩⟩, h1⟩
  · have : DfnLoader.step s .call = s := by
      unfold DfnLoader.step
      rw [if_pos h3]
    rw [this]
    exact ⟨Or.inr ⟨h1, Or.inr ⟨h2, h3⟩⟩, h1⟩

theorem dfnLoader_completeOk_inv (s : DfnLoaderState) (m : ℕ)
    (hi : DfnLoader.Inv s) (hv : s.isLoading = true) :
    DfnLoader.Inv (DfnLoader.step s (.completeOk m)) ∧
    (DfnLoader.step s (.completeOk m)).fetchCount = s.fetchCount := by
  rcases hi with ⟨_, _, h3, _⟩ | ⟨h1, ⟨_, _⟩ | ⟨h2, _⟩⟩
  · rw [h3] at hv; exact absurd hv (by simp)
  · exact ⟨Or.inr ⟨h1, Or.inr ⟨rfl, by simp [DfnLoader.step]⟩⟩, rfl⟩
  · rw [h2] at hv; exact absurd hv (by simp)

theorem dfnLoader_waiterResume_inv (s : DfnLoaderState)
    (hi : DfnLoader.Inv s) (hv1 : s.isLoading = false) (hv2 : 0 < s.waiters) :
    DfnLoader.Inv (DfnLoader.step s .waiterResume) ∧
    (DfnLoader.step s .waiterResume).fetchCount = s.fetchCount := by
  rcases hi with ⟨_, _, _, h4⟩ | ⟨h1, ⟨h2, _⟩ | ⟨h2, h3⟩⟩
  · rw [h4] at hv2; exact absurd hv2 (by simp)
  · rw [h2] at hv1; exact absurd hv1 (by simp)
  · have heq : DfnLoader.step s .waiterResume = { s with waiters := s.waiters - 1 } := by
      simp only [DfnLoader.step]
      rw [if_pos h3]
    rw [heq]
    exact ⟨Or.inr ⟨h1, Or.inr ⟨h2, h3⟩⟩, rfl⟩

/-- Benign valid traces of the DeepFilterNet loader run the fetch body
exactly once as soon as one call occurs. -/
theorem dfnLoader_run_single_flight : ∀ (tr : List DfnLoaderEvent) (s : DfnLoaderState),
    DfnLoader.Inv s → (∀ e ∈ tr, e.benign = true) → DfnLoader.valid s tr = true →
    DfnLoader.Inv (DfnLoader.run s tr) ∧
    (s.fetchCount = 1 → (DfnLoader.run s tr).fetchCount = 1) ∧
    (DfnLoaderEvent.call ∈ tr → (DfnLoader.run s tr).fetchCount = 1) := by
  intro tr
  induction tr with
  | nil =>
    intro s hi _ _
    exact ⟨hi, fun h => h, fun h => absurd h (List.not_mem_nil _)⟩
  | cons e es ih =>
    intro s hi hb hv
    have hbe := hb e (List.mem_cons_self e es)
    have hbes : ∀ x ∈ es, x.benign = true := fun x hx => hb x (List.mem_cons_of_mem e hx)
    cases e with
    | call =>
      have hv2 : DfnLoader.valid (DfnLoader.step s .call) es = true := by
        simpa [DfnLoader.valid] using hv
      have hl := dfnLoader_call_inv s hi
      have hrec := ih (DfnLoader.step s .call) hl.1 hbes hv2
      exact ⟨hrec.1, fun _ => hrec.2.1 hl.2, fun _ => hrec.2.1 hl.2⟩
    | completeOk m =>
      have hv2 : s.isLoading = true ∧
          DfnLoader.valid (DfnLoader.step s (.completeOk m)) es = true := by
        simpa [DfnLoader.valid] using hv
      have hr := dfnLoader_completeOk_inv s m hi hv2.1
      have hrec := ih (DfnLoader.step s (.completeOk m)) hr.1 hbes hv2.2
      refine ⟨hrec.1, fun h1 => hrec.2.1 (by rw [hr.2]; exact h1), fun hmem => ?_⟩
      rcases List.mem_cons.mp hmem with heq | hmem'
      · exact absurd heq (by simp)
      · exact hrec.2.2 hmem'
    | waiterResume =>
      have hv2 : (s.isLoading = false ∧ 0 < s.waiters) ∧
          DfnLoader.valid (DfnLoader.step s .waiterResume) es = true := by
        have h := hv
        simp only [DfnLoader.valid, Bool.and_eq_true, Bool.not_eq_true',
          decide_eq_true_eq] at h
        exact ⟨⟨h.1.1, h.1.2⟩, h.2⟩
      have hr := dfnLoader_waiterResume_inv s hi hv2.1.1 hv2.1.2
      have hrec := ih (DfnLoader.step s .waiterResume) hr.1 hbes hv2.2
      refine ⟨hrec.1, fun h1 => hrec.2.1 (by rw [hr.2]; exact h1), fun hmem => ?_⟩
      rcases List.mem_cons.mp hmem with heq | hmem'
      · exact absurd heq (by simp)
      · exact hrec.2.2 hmem'
    | completeErr => exact absurd hbe (by simp [DfnLoaderEvent.benign])
    | reset => exact absurd hbe (by simp [DfnLoaderEvent.benign])

/-- C1: while no load has failed and `reset()` has not been called, both
loaders invoke their underlying fetch exactly once across any number of
`load()` calls: from the fresh state the first call starts the fetch and
moves `NOT_LOADED → LOADING`; a call in `LOADING` with an in-flight
promise awaits that same promise without fetching; a call after a
successful completion returns the cached module without fetching; and
any benign well-formed trace containing at least one call ends with
`fetchCount = 1` (for the generic `WasmLoader` and for the
`DeepFilterNetLoader` polling machine alike). -/
theorem claim_loader_single_flight :
    (∀ tr : List WasmLoaderEvent, (∀ e ∈ tr, e.benign = true) →
      WasmLoader.valid WasmLoader.init tr = true → WasmLoaderEvent.load ∈ tr →
      (WasmLoader.run WasmLoader.init tr).fetchCount = 1) ∧
    (WasmLoader.init.status = .notLoaded ∧
      WasmLoader.loadAction WasmLoader.init = .startFetch 0 ∧
      (WasmLoader.load WasmLoader.init).status = .loading ∧
      (WasmLoader.load WasmLoader.init).fetchCount = 1) ∧
    (∀ s : WasmLoaderState, ∀ p : ℕ, s.status = .loading → s.loadPromise = some p →
      WasmLoader.loadAction s = .awaitPromise p ∧ WasmLoader.load s = s) ∧
    (∀ s : WasmLoaderState, ∀ m : ℕ, s.status = .loaded → s.module = some m →
      WasmLoader.loadAction s = .cached m ∧ WasmLoader.load s = s) ∧
    (∀ tr : List DfnLoaderEvent, (∀ e ∈ tr, e.benign = true) →
      DfnLoader.valid DfnLoader.init tr = true → DfnLoaderEvent.call ∈ tr →
      (DfnLoader.run DfnLoader.init tr).fetchCount = 1) := by
  refine ⟨?_, ⟨rfl, rfl, rfl, rfl⟩, ?_, ?_, ?_⟩
  · intro tr hb hv hm
    exact (wasmLoader_run_single_flight tr WasmLoader.init
      (Or.inl ⟨rfl, rfl, rfl⟩) hb hv).2.2 hm
  · intro s p h1 h2
    have ha : WasmLoader.loadAction s = .awaitPromise p := by
      unfold WasmLoader.loadAction
      rw [if_neg (by rw [h1]; simp), if_pos ⟨h1, by rw [h2]; simp⟩, h2]
      rfl
    refine ⟨ha, ?_⟩
    unfold WasmLoader.load
    rw [ha]
  · intro s m h1 h2
    have ha : WasmLoader.loadAction s = .cached m := by
      unfold WasmLoader.loadAction
      rw [if_pos ⟨h1, by rw [h2]; simp⟩, h2]
      rfl
    refine ⟨ha, ?_⟩
    unfold WasmLoader.load
    rw [ha]
  · intro tr hb hv hm
    exact (dfnLoader_run_single_flight tr DfnLoader.init
      (Or.inl ⟨rfl, rfl, rfl, rfl⟩) hb hv).2.2 hm

/-- Witness for C1: concrete contended traces — two calls racing, the
fetch resolving, then a third call — each running the fetch once. -/
theorem claim_loader_single_flight_witness :
    (WasmLoader.run WasmLoader.init [.load, .load, .resolveOk 7, .load]).fetchCount = 1 ∧
    (DfnLoader.run DfnLoader.init
      [.call, .call, .completeOk 3, .waiterResume, .call]).fetchCount = 1 :=
  ⟨claim_loader_single_flight.1 [.load, .load, .resolveOk 7, .load]
      (by decide) (by decide) (by decide),
   claim_loader_single_flight.2.2.2.2 [.call, .call, .completeOk 3, .waiterResume, .call]
      (by decide) (by decide) (by decide)⟩

/-- The hard clamp of `processFrame` keeps every sample in `[-1, 1]`. -/
theorem clip_abs_le_one (x : ℚ) :
    |if x > 1 then (1:ℚ) else if x < -1 then -1 else x| ≤ 1 := by
  split_ifs with h1 h2 <;> rw [abs_le] <;> constructor <;> linarith

/-- The blended-gain emit value stays in `[-1, 1]` when the clamped
sample and the original sample are and the per-sample gain is in
`[0, 1]`. -/
theorem blend_abs_le_one {a b g : ℚ} (ha : |a| ≤ 1) (hb : |b| ≤ 1)
    (hg0 : 0 ≤ g) (hg1 : g ≤ 1) :
    |a * g + b * (max 0 (1 - g) * (1/10)) * g| ≤ 1 := by
  have ha' := abs_le.mp ha
  have hb' := abs_le.mp hb
  rw [max_eq_right (by linarith : (0:ℚ) ≤ 1 - g)]
  rw [abs_le]
  constructor <;>
    nlinarith [mul_nonneg (by linarith : (0:ℚ) ≤ 1 - a) hg0,
      mul_nonneg (by linarith : (0:ℚ) ≤ 1 + a) hg0,
      mul_nonneg (mul_nonneg (by linarith : (0:ℚ) ≤ 1 - b)
        (by linarith : (0:ℚ) ≤ 1 - g)) hg0,
      mul_nonneg (mul_nonneg (by linarith : (0:ℚ) ≤ 1 + b)
        (by linarith : (0:ℚ) ≤ 1 - g)) hg0,
      mul_nonneg (by linarith : (0:ℚ) ≤ 1 - g) (by linarith : (0:ℚ) ≤ 10 - g)]

/-- One emit step: when inbound samples lie in `[-1, 1]` and the VAD
gain state invariant holds, every emitted sample lies in `[-1, 1]` and
the invariant is preserved — whatever the denoiser wrote. -/
theorem track_processFrame_clamp {σ : Type} (n : ℕ)
    (den : σ → (Fin n → ℚ) → (Fin n → ℚ) × ℚ × σ) (ap rn : Bool)
    (st : TrackState σ) (f : Fin n → ℚ)
    (hp1 : 3/20 ≤ st.vadGain.previousGain) (hp2 : st.vadGain.previousGain ≤ 1)
    (hf : ∀ i, |f i| ≤ 1) :
    (∀ i, |(Track.processFrame n den ⟨ap, rn, DEFAULT_VAD_CONFIG⟩ st f).1 i| ≤ 1) ∧
    3/20 ≤ (Track.processFrame n den ⟨ap, rn, DEFAULT_VAD_CONFIG⟩ st f).2.vadGain.previousGain ∧
    (Track.processFrame n den ⟨ap, rn, DEFAULT_VAD_CONFIG⟩ st f).2.vadGain.previousGain ≤ 1 := by
  have hgain := vadComputeGain_mem st.vadGain (den st.den f).2.1 hp1 hp2
  by_cases hcond : ap = true ∧ rn = true ∧ (den st.den f).2.1 > 0
  · refine ⟨?_, ?_, ?_⟩
    · intro i
      have hn : (0:ℚ) < (n:ℚ) := by
        exact_mod_cast lt_of_le_of_lt (Nat.zero_le _) i.isLt
      have ht0 : 0 ≤ ((i : ℕ) : ℚ) / (n:ℚ) := by positivity
      have ht1 : ((i : ℕ) : ℚ) / (n:ℚ) ≤ 1 := by
        rw [div_le_one hn]
        exact_mod_cast le_of_lt i.isLt
      have haff := @affine_mem (3/20) 1 _ _ _ hp1 hp2 hgain.1 hgain.2 ht0 ht1
      have hgi : 0 ≤ st.vadGain.previousGain +
            ((VadGain.computeGain DEFAULT_VAD_CONFIG st.vadGain (den st.den f).2.1).1 -
              st.vadGain.previousGain) / (n:ℚ) * ((i : ℕ) : ℚ) ∧
          st.vadGain.previousGain +
            ((VadGain.computeGain DEFAULT_VAD_CONFIG st.vadGain (den st.den f).2.1).1 -
              st.vadGain.previousGain) / (n:ℚ) * ((i : ℕ) : ℚ) ≤ 1 := by
        have heq : st.vadGain.previousGain +
            ((VadGain.computeGain DEFAULT_VAD_CONFIG st.vadGain (den st.den f).2.1).1 -
              st.vadGain.previousGain) / (n:ℚ) * ((i : ℕ) : ℚ) =
            st.vadGain.previousGain +
            ((VadGain.computeGain DEFAULT_VAD_CONFIG st.vadGain (den st.den f).2.1).1 -
              st.vadGain.previousGain) * (((i : ℕ) : ℚ) / (n:ℚ)) := by ring
        rw [heq]
        exact ⟨by linarith [haff.1], haff.2⟩
      simp only [Track.processFrame]
      rw [if_pos hcond]
      simp only
      exact blend_abs_le_one (clip_abs_le_one _) (hf i) hgi.1 hgi.2
    · simp only [Track.processFrame]
      rw [if_pos hcond]
      simp only
      rw [vadComputeGain_prev]
      exact hgain.1
    · simp only [Track.processFrame]
      rw [if_pos hcond]
      simp only
      rw [vadComputeGain_prev]
      exact hgain.2
  · refine ⟨?_, ?_, ?_⟩
    · intro i
      simp only [Track.processFrame]
      rw [if_neg hcond]
      simp only
      exact clip_abs_le_one _
    · simp only [Track.processFrame]
      rw [if_neg hcond]
      exact hp1
    · simp only [Track.processFrame]
      rw [if_neg hcond]
      exact hp2

/-- Session form of the emit-step bound, by induction over the inbound
frames. -/
theorem track_session_clamp {σ : Type} (n : ℕ)
    (den : σ → (Fin n → ℚ) → (Fin n → ℚ) × ℚ × σ) (ap rn : Bool) :
    ∀ (inputs : List (Fin n → ℚ)) (st : TrackState σ),
      3/20 ≤ st.vadGain.previousGain → st.vadGain.previousGain ≤ 1 →
      (∀ f ∈ inputs, ∀ i, |f i| ≤ 1) →
      ∀ out ∈ Track.runSession n den ⟨ap, rn, DEFAULT_VAD_CONFIG⟩ st inputs,
        ∀ i, |out i| ≤ 1 := by
  intro inputs
  induction inputs with
  | nil =>
    intro st _ _ _ out hout
    exact absurd hout (List.not_mem_nil _)
  | cons f fs ih =>
    intro st hp1 hp2 hin out hout
    have hstep := track_processFrame_clamp n den ap rn st f hp1 hp2
      (hin f (List.mem_cons_self f fs))
    rw [Track.runSession] at hout
    rcases List.mem_cons.mp hout with rfl | hmem
    · exact hstep.1
    · exact ih (Track.processFrame n den ⟨ap, rn, DEFAULT_VAD_CONFIG⟩ st f).2
        hstep.2.1 hstep.2.2
        (fun x hx => hin x (List.mem_cons_of_mem f hx)) out hmem

/-- C4 amended: with the default VAD gain configuration a session's
emitted samples have absolute value at most 1 whenever all inbound
samples lie in `[-1, 1]` — on every path, including the RNNoise path
with VAD gain enabled; but inbound samples outside `[-1, 1]` can drive
an emitted sample above 1 on that path, because the hard clamp runs
before `applyGainWithBlend` mixes the unclamped original back in. -/
theorem claim_track_hard_clamp {σ : Type} (n : ℕ)
    (den : σ → (Fin n → ℚ) → (Fin n → ℚ) × ℚ × σ) (d0 : σ) (ap rn : Bool)
    (inputs : List (Fin n → ℚ)) (hin : ∀ f ∈ inputs, ∀ i, |f i| ≤ 1) :
    ∀ out ∈ Track.runSession n den ⟨ap, rn, DEFAULT_VAD_CONFIG⟩
        (Track.initState d0) inputs, ∀ i, |out i| ≤ 1 :=
  track_session_clamp n den ap rn inputs (Track.initState d0)
    (by norm_num [Track.initState, VadGain.initialState])
    (by norm_num [Track.initState, VadGain.initialState]) hin

/-- Witness for C4 (amended): the first sample of the first emitted
frame of a one-sample-frame session over a pass-through denoiser. -/
theorem claim_track_hard_clamp_witness :
    |(Track.processFrame 1 (fun (s : Unit) (f : Fin 1 → ℚ) => (f, 0, s))
        ⟨true, true, DEFAULT_VAD_CONFIG⟩ (Track.initState ()) (fun _ => 1/2)).1 0| ≤ 1 :=
  claim_track_hard_clamp 1 (fun s f => (f, 0, s)) () true true [fun _ => 1/2]
    (by
      intro f hf i
      rcases List.mem_singleton.mp hf with rfl
      norm_num [abs_le])
    ((Track.processFrame 1 (fun s f => (f, 0, s)) ⟨true, true, DEFAULT_VAD_CONFIG⟩
        (Track.initState ()) (fun _ => 1/2)).1)
    (List.mem_cons_self _ _) 0

/-- The RNNoise kernel used in the C4 counterexample: pass-through audio
with a constant VAD of 1. -/
def cexKernel : RNNoiseKernel 960 := fun inp => (inp, 1)

/-- The denoiser step of the C4 counterexample: the RNNoise processor
over `cexKernel`. -/
def cexDen : RNNoiseState → (Fin 960 → ℚ) → (Fin 960 → ℚ) × ℚ × RNNoiseState :=
  fun s f => RNNoise.doProcessFrame cexKernel s f

/-- An inbound frame of the C4 counterexample whose samples exceed the
nominal `[-1, 1]` range. -/
def cexInput : Fin 960 → ℚ := fun _ => 100

/-- The frames a session with VAD gain enabled on the RNNoise path emits
for two such inbound frames. -/
def cexEmitted : List (Fin 960 → ℚ) :=
  Track.runSession 960 cexDen ⟨true, true, DEFAULT_VAD_CONFIG⟩
    (Track.initState RNNoise.initState) [cexInput, cexInput]

/-- C4 counterexample: on the spectral (RNNoise) path with VAD gain
enabled and inbound samples of amplitude 100, the first sample of the
second emitted frame is about 1.196 — strictly greater than 1, so the
claimed hard bound on emitted samples fails: the clamp runs before the
gain-with-blend stage, which mixes the unclamped original back in. -/
theorem claim_track_hard_clamp_cex :
    1 < (cexEmitted.getD 1 (fun _ => 0)) ⟨0, by norm_num⟩ := by
  norm_num [cexEmitted, cexDen, cexKernel, cexInput, Track.runSession,
    Track.processFrame, Track.initState, RNNoise.doProcessFrame,
    RNNoise.smoothedGainNext, RNNoise.computeTargetGain, RNNoise.smoothVad,
    RNNoise.initState, SCALE_TO_INT16, SCALE_FROM_INT16, GAIN_ATTACK_COEFF,
    GAIN_RELEASE_COEFF, MIN_OUTPUT_GAIN, FADE_IN_SAMPLES, VadGain.computeGain,
    VadGain.computeTargetGain, VadGain.initialState, DEFAULT_VAD_CONFIG,
    lerp, clamp, min_def, max_def, List.getD]

end Denoise
